import Mathlib

/-!
Verification development for the `plogging` library (color-aware log
formatting on top of Python's `logging`).

The development shallowly embeds the library's pure/state-passing core:

* the bracket-template tokenizer used throughout (`string.Formatter.parse`
  from the Python standard library, the external parsing collaborator the
  library relies on) as `parseFmt`;
* `FormatStringConverter.to_color_format` / `strip_color`
  (`_converter.py`) as `toColorFormat` / `stripColor`;
* `LevelContainer` (`_level_container.py`) as `LC`;
* `Palette` (`_palette.py`);
* the template validator `_validate_fmt` and the `Formatter` pipeline
  (`_formatter.py`): `__init__`'s format preparation, `_get_fmt_str`,
  `_get_fmt_kwargs`, `formatMessage`, `formatException`, `format`.

Python mutation is modelled by explicit state passing; Python exceptions by
`Except`; Python `dict` by association lists where the rightmost binding
wins (matching `a | b` update semantics).
-/

namespace Plogging

/-- The `{` character (written via its code point). -/
def LBRACE : Char := Char.ofNat 123

/-- The `}` character (written via its code point). -/
def RBRACE : Char := Char.ofNat 125

/-- Control byte 0x02 (STX), the enter-marker suffix `chr(2)`. -/
def STX : Char := Char.ofNat 2

/-- Control byte 0x03 (ETX), the exit-marker suffix `chr(3)`. -/
def ETX : Char := Char.ofNat 3

/-- The single-quote character, used when modelling Python `repr`. -/
def SQ : Char := Char.ofNat 39

deriving instance DecidableEq for Except

/-- Leading-sublist test (`startsList p s` holds when `p` is a prefix of
`s`). -/
def startsList : List Char → List Char → Bool
  | [], _ => true
  | _ :: _, [] => false
  | p :: ps, c :: cs => p = c && startsList ps cs

/-- `str.startswith` (kernel-computable model over the character list). -/
def strStartsWith (s p : String) : Bool := startsList p.data s.data

/-- `s[1:]` for the underscore-escape rule. -/
def strDrop1 (s : String) : String := String.mk s.data.tail

/-- `s[-1]`, the last character if any. -/
def lastChar? (s : String) : Option Char := s.data.getLast?

/-- A field reference produced by the tokenizer: `name`, optional
conversion character (`None` or one char after `!`), and the format spec
(empty string when no `:` part is present, as in CPython's tuples). -/
structure FieldRef where
  name : String
  conv : Option Char
  spec : String
deriving DecidableEq, Repr

/-- One element of `string.Formatter.parse`'s output: a tuple
`(literal_text, field_name, format_spec, conversion)`.  `field = none`
models the tuples whose `field_name`/`format_spec`/`conversion` are all
`None` (trailing literal chunks and the pieces cut at `{{` / `}}`). -/
structure Tok where
  literal : String
  field : Option FieldRef
deriving DecidableEq, Repr

/-- Scan a field name, as CPython's `parse_field` does: the name is ended
by `}`, `:` or `!`; a `[` skips everything up to the next `]` (which then
rejoins the name as an ordinary character); a `{` in the name is an error.
Returns `(name characters, terminator, rest after terminator)`. -/
def scanFieldName (fuel : Nat) (acc : List Char) (cs : List Char) :
    Except String (List Char × Char × List Char) :=
  match fuel with
  | 0 => .error "parse: out of fuel"
  | fuel + 1 =>
    match cs with
    | [] => .error "expected '\x7d' before end of string"
    | c :: rest =>
      if c = LBRACE then
        .error "unexpected '\x7b' in field name"
      else if c = '[' then
        match rest.span (fun d => d ≠ ']') with
        | (_, []) => .error "expected '\x7d' before end of string"
        | (inside, _ :: rest2) =>
          scanFieldName fuel (']' :: inside.reverse ++ c :: acc) rest2
      else if c = RBRACE ∨ c = ':' ∨ c = '!' then
        .ok (acc.reverse, c, rest)
      else
        scanFieldName fuel (c :: acc) rest

/-- Scan a format spec, counting nested braces, as CPython does.
Returns `(spec characters, rest after the closing brace)`. -/
def scanSpec (acc : List Char) (count : Nat) (cs : List Char) :
    Except String (List Char × List Char) :=
  match cs with
  | [] => .error "unmatched '\x7b' in format spec"
  | c :: rest =>
    if c = LBRACE then
      scanSpec (c :: acc) (count + 1) rest
    else if c = RBRACE then
      if count = 1 then .ok (acc.reverse, rest)
      else scanSpec (c :: acc) (count - 1) rest
    else
      scanSpec (c :: acc) count rest

/-- Parse one `{...}` field (the leading `{` already consumed), as
CPython's `parse_field`: name, then optionally `!c`, then optionally
`:spec`. -/
def parseField (cs : List Char) : Except String (FieldRef × List Char) := do
  let (nameCs, term, rest) ← scanFieldName (cs.length + 1) [] cs
  let name := String.mk nameCs
  if term = RBRACE then
    .ok (⟨name, none, ""⟩, rest)
  else if term = '!' then
    match rest with
    | [] => .error "end of string while looking for conversion specifier"
    | conv :: rest2 =>
      match rest2 with
      | [] => .error "unmatched '\x7b' in format spec"
      | c2 :: rest3 =>
        if c2 = RBRACE then
          .ok (⟨name, some conv, ""⟩, rest3)
        else if c2 = ':' then do
          let (specCs, rest4) ← scanSpec [] 1 rest3
          .ok (⟨name, some conv, String.mk specCs⟩, rest4)
        else
          .error "expected ':' after conversion specifier"
  else do -- term = ':'
    let (specCs, rest4) ← scanSpec [] 1 rest
    .ok (⟨name, none, String.mk specCs⟩, rest4)

/-- Split off the longest literal prefix containing no brace. -/
def findBrace : List Char → List Char × List Char
  | [] => ([], [])
  | c :: cs =>
    if c = LBRACE ∨ c = RBRACE then ([], c :: cs)
    else
      let (a, b) := findBrace cs
      (c :: a, b)

/-- The tokenizer loop of `string.Formatter.parse`: literal text up to a
brace; `{{` / `}}` end the current literal chunk with one brace appended
(field parts all `None`); a lone `}` is an error; `{` starts a field. -/
def parseAux (fuel : Nat) (cs : List Char) : Except String (List Tok) :=
  match fuel with
  | 0 => .error "parse: out of fuel"
  | fuel + 1 =>
    let (lit, rest) := findBrace cs
    match rest with
    | [] => .ok (if lit = [] then [] else [⟨String.mk lit, none⟩])
    | b :: rest' =>
      if b = RBRACE then
        match rest' with
        | b2 :: rest'' =>
          if b2 = RBRACE then do
            let toks ← parseAux fuel rest''
            .ok (⟨String.mk (lit ++ [b]), none⟩ :: toks)
          else .error "Single '\x7d' encountered in format string"
        | [] => .error "Single '\x7d' encountered in format string"
      else -- b = LBRACE
        match rest' with
        | [] => .error "Single '\x7b' encountered in format string"
        | b2 :: rest'' =>
          if b2 = LBRACE then do
            let toks ← parseAux fuel rest''
            .ok (⟨String.mk (lit ++ [b]), none⟩ :: toks)
          else do
            let (fld, rest3) ← parseField rest'
            let toks ← parseAux fuel rest3
            .ok (⟨String.mk lit, some fld⟩ :: toks)

/-- `string.Formatter().parse(fmt)`, collected into a list (Python raises
`ValueError` lazily while iterating; the converter and validator always
drain the iterator, so collecting eagerly is faithful there). -/
def parseFmt (fmt : String) : Except String (List Tok) :=
  parseAux (fmt.length + 1) fmt.data

/-! ## `FormatStringConverter` (`_converter.py`) -/

/-- `FormatStringConverter._conversion`: `f"!{conversion}" if conversion
else ""`. -/
def conversionStr (conv : Option Char) : String :=
  match conv with
  | some c => "!" ++ String.singleton c
  | none => ""

/-- `FormatStringConverter._format_spec`: `f":{format_spec}" if
format_spec else ""`. -/
def formatSpecStr (spec : String) : String :=
  if spec ≠ "" then ":" ++ spec else ""

/-- `FormatStringConverter._format_statement`:
`f"{{{field_name or ''}{conversion}{format_spec}}}"`. -/
def formatStatement (fieldName : Option String) (conv spec : String) : String :=
  String.singleton LBRACE ++
    (match fieldName with
     | some n => n
     | none => "") ++ conv ++ spec ++ String.singleton RBRACE

/-- One element of `FormatStringConverter.values`: either an emitted
string, or an enter `FormatContainer` (whose `field_name` may still be
unbound; `field_name_append` is always `chr(2)` for containers). -/
inductive Val where
  | str (s : String)
  | enter (fieldName : Option String) (conv spec : String)
deriving DecidableEq

/-- `FormatContainer.__str__`:
`f"{{{self.field_name}{self.field_name_append}{self.conversion}{self.format_spec}}}"`
(an unbound `field_name` prints as Python's `None`). -/
def Val.render : Val → String
  | .str s => s
  | .enter fieldName conv spec =>
    String.singleton LBRACE ++
      (match fieldName with
       | some n => n
       | none => "None") ++ String.singleton STX ++ conv ++ spec ++
      String.singleton RBRACE

/-- The converter's transient state: the `values` list and
`awaiting_exit`.  Python's `awaiting_exit` aliases the enter container
inside `values`; the alias is modelled by the container's index. -/
structure ConvState where
  values : List Val
  awaiting : Option Nat
deriving DecidableEq

/-- `FormatStringConverter._add_flag`. -/
def addFlag (s : ConvState) (fieldName : Option String) (conv spec : String) :
    ConvState :=
  { s with values := s.values ++ [.str (formatStatement fieldName conv spec)] }

/-- `FormatStringConverter._enter`: error if a group is already open,
otherwise append an unbound enter container and remember it. -/
def enterStep (s : ConvState) (conv spec : String) : Except String ConvState :=
  match s.awaiting with
  | some _ => .error "new enter flag found before previous enter flag was closed"
  | none =>
    .ok ⟨s.values ++ [.enter none conv spec], some s.values.length⟩

/-- `FormatStringConverter._exit`: error if no group is open or the open
group never captured a field name; otherwise emit the exit-marker flag. -/
def exitStep (s : ConvState) (conv spec : String) : Except String ConvState :=
  match s.awaiting with
  | none => .error "exit flag used before enter flag"
  | some i =>
    match s.values.getD i (.str "") with
    | .enter none _ _ =>
      .error "exit flag used without a contained flag; make sure you have at least one flag between your enter and exit flags"
    | .enter (some n) _ _ =>
      .ok ⟨s.values ++
        [.str (formatStatement (some (n ++ String.singleton ETX)) conv spec)],
        none⟩
    | .str _ => .error "awaiting_exit is not a FormatContainer"

/-- Bind the open group's field name (`self.awaiting_exit.field_name =
field_name`), updating the aliased container inside `values`. -/
def bindAwaiting (s : ConvState) (i : Nat) (fieldName : String) : ConvState :=
  let v :=
    match s.values.getD i (.str "") with
    | .enter _ c sp => Val.enter (some fieldName) c sp
    | v => v
  { s with values := s.values.set i v }

/-- The body of `to_color_format`'s loop for one parse tuple. -/
def convStep (s : ConvState) (tok : Tok) : Except String ConvState :=
  let s := if tok.literal ≠ "" then
      { s with values := s.values ++ [.str tok.literal] }
    else s
  match tok.field with
  | none => .ok s
  | some f =>
    let conv := conversionStr f.conv
    let spec := formatSpecStr f.spec
    if f.name = "" then
      .ok (addFlag s none conv spec)
    else if strStartsWith f.name "_" then
      .ok (addFlag s (some (strDrop1 f.name)) conv spec)
    else if f.name = "enter" then
      enterStep s conv spec
    else if f.name = "exit" then
      exitStep s conv spec
    else
      match s.awaiting with
      | some i =>
        match s.values.getD i (.str "") with
        | .enter (some _) _ _ => .ok (addFlag s (some f.name) conv spec)
        | _ => .ok (addFlag (bindAwaiting s i f.name) (some f.name) conv spec)
      | none =>
        let s := addFlag s (some (f.name ++ String.singleton STX)) "" ""
        let s := addFlag s (some f.name) conv spec
        .ok (addFlag s (some (f.name ++ String.singleton ETX)) "" "")

/-- The fresh converter state (`values = []`, `awaiting_exit = None`). -/
def convInit : ConvState := ⟨[], none⟩

/-- Run the converter loop over a token list. -/
def runTokens (s : ConvState) (toks : List Tok) : Except String ConvState :=
  toks.foldlM convStep s

/-- `FormatStringConverter.to_color_format` (state is reset at the end of
each call, so one call is a pure function of the input string). -/
def toColorFormat (fmt : String) : Except String String := do
  let toks ← parseFmt fmt
  let st ← runTokens convInit toks
  .ok (String.join (st.values.map Val.render))

/-- The body of `strip_color`'s loop for one parse tuple.  Note: a tuple
with no field still appends `_format_statement(None, "", "") = "{}"`
(the loop has no counterpart of `to_color_format`'s all-`None` guard). -/
def stripTok (tok : Tok) : String :=
  (if tok.literal ≠ "" then tok.literal else "") ++
    match tok.field with
    | none => formatStatement none "" ""
    | some f =>
      let conv := conversionStr f.conv
      let spec := formatSpecStr f.spec
      if f.name = "enter" ∨ f.name = "exit" then ""
      else if f.name ≠ "" ∧
          (lastChar? f.name = some STX ∨ lastChar? f.name = some ETX) then ""
      else if f.name ≠ "" ∧ strStartsWith f.name "_" then
        formatStatement (some (strDrop1 f.name)) conv spec
      else
        formatStatement (some f.name) conv spec

/-- `FormatStringConverter.strip_color`. -/
def stripColor (fmt : String) : Except String String := do
  let toks ← parseFmt fmt
  .ok (String.join (toks.map stripTok))

/-! ## `LevelContainer` (`_level_container.py`) -/

/-- The six private attributes of a `LevelContainer`
(`_debug` … `_critical`, `_default`). -/
inductive LCAttr where
  | debug | info | warning | error | critical | default
deriving DecidableEq, Repr

/-- A `LevelContainer`: one optional value per logging level plus an
optional container-wide default. -/
structure LC (α : Type) where
  debug : Option α := none
  info : Option α := none
  warning : Option α := none
  error : Option α := none
  critical : Option α := none
  default : Option α := none
deriving DecidableEq, Repr

/-- `getattr(container, "_<attr>")`. -/
def LC.attr (c : LC α) : LCAttr → Option α
  | .debug => c.debug
  | .info => c.info
  | .warning => c.warning
  | .error => c.error
  | .critical => c.critical
  | .default => c.default

/-- `setattr(container, "_<attr>", v)`. -/
def LC.setAttr (c : LC α) : LCAttr → Option α → LC α
  | .debug, v => { c with debug := v }
  | .info, v => { c with info := v }
  | .warning, v => { c with warning := v }
  | .error, v => { c with error := v }
  | .critical, v => { c with critical := v }
  | .default, v => { c with default := v }

/-- The five level attributes, in the order the source iterates them. -/
def levelAttrs : List LCAttr := [.debug, .info, .warning, .error, .critical]

/-- All six attributes, in the order of `_update_formats`'s loop. -/
def allAttrs : List LCAttr := levelAttrs ++ [.default]

/-- Python `x or y` on optional values: `none` and present-but-falsy
values both fall through to `y`; the value's truthiness is supplied
because it depends on the carried type (empty string, empty list, …). -/
def pyOr (truthy : α → Bool) (x y : Option α) : Option α :=
  match x with
  | some v => if truthy v then some v else y
  | none => y

/-- `LevelContainer._get`: `value or self._default or (default if default
is not MISSING else None)`; the per-call fallback is `none` for `MISSING`
and is returned unconditionally (even falsy) when supplied. -/
def lcGet (truthy : α → Bool) (c : LC α) (value : Option α) (fb : Option α) :
    Option α :=
  pyOr truthy value (pyOr truthy c.default fb)

/-- The per-level accessor methods (`debug()` … `critical()`), indexed by
the level attribute. -/
def LC.levelLookup (truthy : α → Bool) (c : LC α) (a : LCAttr)
    (fb : Option α := none) : Option α :=
  lcGet truthy c (c.attr a) fb

/-- A level argument as Python accepts it: an `int` (non-`bool`) or a
`str` alias. -/
inductive PyLevel where
  | int (n : Int)
  | str (s : String)
deriving DecidableEq, Repr

/-- The `_name_to_level` alias table. -/
def nameToLevel : String → Option Int
  | "CRITICAL" => some 50
  | "FATAL" => some 50
  | "ERROR" => some 40
  | "WARN" => some 30
  | "WARNING" => some 30
  | "INFO" => some 20
  | "DEBUG" => some 10
  | _ => none

/-- `_verify_level`: an int must be one of `(10, 20, 30, 40, 50)`, a
string must be a known alias. -/
def verifyLevel : PyLevel → Except String Int
  | .int n =>
    if n = 10 ∨ n = 20 ∨ n = 30 ∨ n = 40 ∨ n = 50 then .ok n
    else .error ("Unknown level: " ++ toString n)
  | .str s =>
    match nameToLevel s with
    | some n => .ok n
    | none => .error ("Unknown level: " ++ s)

/-- The `_levelmap` dict: verified level number to level attribute. -/
def attrOfLevel : Int → Option LCAttr
  | 10 => some .debug
  | 20 => some .info
  | 30 => some .warning
  | 40 => some .error
  | 50 => some .critical
  | _ => none

/-- `LevelContainer.get`: verify the level (propagating its error), then
look the value up with the container default and the optional per-call
fallback. -/
def LC.get (truthy : α → Bool) (c : LC α) (lvl : PyLevel)
    (fb : Option α := none) : Except String (Option α) :=
  match verifyLevel lvl with
  | .error e => .error e
  | .ok n =>
    match attrOfLevel n with
    | some a => .ok (c.levelLookup truthy a fb)
    | none => .error "KeyError in _levelmap"

/-- `LevelContainer.iterall()` with no per-level defaults. -/
def LC.iterAll (truthy : α → Bool) (c : LC α) : List (Option α) :=
  levelAttrs.map (fun a => c.levelLookup truthy a)

/-! ## `Palette` (`_palette.py`) -/

/-- A raw color value handed to `Palette`: a single un-escaped ANSI code
or an iterable of codes. -/
inductive ColorVal where
  | single (s : String)
  | many (l : List String)
deriving DecidableEq, Repr

/-- Python truthiness of a raw color value. -/
def cvTruthy : ColorVal → Bool
  | .single s => s ≠ ""
  | .many l => l ≠ []

/-- The `entry` template `"\033[{}m"` applied to one code. -/
def ansiEntry (c : String) : String := "\x1b[" ++ c ++ "m"

/-- One level's normalized color string, per `_set_colors`: `None`
becomes `""`, a single code one escape, an iterable a concatenation. -/
def formatColor : Option ColorVal → String
  | none => ""
  | some (.single s) => ansiEntry s
  | some (.many l) => String.join (l.map ansiEntry)

/-- Generic Python-`dict` lookup on an association list where later
bindings shadow earlier ones. -/
def lookupLast [BEq κ] (d : List (κ × α)) (k : κ) : Option α :=
  (d.reverse.find? (fun p => p.1 == k)).map (fun p => p.2)

/-- A `Palette`: the `colors` dict built by `_set_colors`. -/
structure Palette where
  colors : List (Int × String)
deriving DecidableEq, Repr

/-- `Palette.__init__`: zip the five levels with
`level_colors.iterall()` and normalize each entry. -/
def Palette.ofLC (lc : LC ColorVal) : Palette :=
  ⟨(List.zip [10, 20, 30, 40, 50] (lc.iterAll cvTruthy)).map
    (fun p => (p.1, formatColor p.2))⟩

/-- `Palette.enter`: `self.colors.get(levelno, "")`. -/
def Palette.enter (p : Palette) (levelno : Int) : String :=
  (lookupLast p.colors levelno).getD ""

/-- `Palette.exit`: `"\033[0m" if self.colors.get(levelno, None) else ""`. -/
def Palette.exit (p : Palette) (levelno : Int) : String :=
  match lookupLast p.colors levelno with
  | some v => if v ≠ "" then "\x1b[0m" else ""
  | none => ""

/-- `parse_palettes`: marker keys (`name`+STX / `name`+ETX) mapped to the
level's enter/exit strings; all enter entries precede all exit entries. -/
def parsePalettes (levelno : Int) (palettes : List (String × Palette)) :
    List (String × String) :=
  if palettes = [] then []
  else
    palettes.map (fun p => (p.1 ++ String.singleton STX, p.2.enter levelno)) ++
      palettes.map (fun p => (p.1 ++ String.singleton ETX, p.2.exit levelno))

/-! ## Constants (`constants.py`) -/

/-- `VALID_FLAGS`. -/
def VALID_FLAGS : List String :=
  ["name", "message", "args", "levelname", "levelno", "pathname",
   "filename", "module", "exc_info", "exc_text", "stack_info", "lineno",
   "funcName", "created", "msecs", "relativeCreated", "thread",
   "threadName", "processName", "process", "asctime", "enter", "exit"]

/-- The field names given no-op marker defaults in
`COLOR_FORMAT_DEFAULTS`, in source order. -/
def colorDefaultNames : List String :=
  ["name", "message", "args", "levelname", "levelno", "pathname",
   "filename", "module", "exc_info", "exc_text", "stack_info", "lineno",
   "funcName", "created", "msecs", "relativeCreated", "thread",
   "threadName", "processName", "process", "asctime"]

/-- `COLOR_FORMAT_DEFAULTS`: for each name an empty enter marker then an
empty exit marker, in the literal dict's order. -/
def colorFormatDefaults : List (String × String) :=
  colorDefaultNames.flatMap
    (fun n => [(n ++ String.singleton STX, ""), (n ++ String.singleton ETX, "")])

/-! ## Template validation (`_validate_fmt` and its regexes) -/

/-- `\w` (ASCII approximation of the regex word class). -/
def isWordChar (c : Char) : Bool := c.isAlphanum || c = '_'

/-- Python's `$` in `re.match`: end of string, or just before one
trailing newline. -/
def atEndPy : List Char → Bool
  | [] => true
  | [c] => c = '\n'
  | _ => false

/-- The `(\.\w+|\[[^]]+\])*$` tail of `field_spec`.  The alternatives are
first-character disjoint and their bodies cannot cross their delimiters,
so this backtracking-free scan recognizes the same language. -/
def fieldSuffixes (fuel : Nat) (cs : List Char) : Bool :=
  match fuel with
  | 0 => false
  | fuel + 1 =>
    if atEndPy cs then true
    else
      match cs with
      | '.' :: rest =>
        let (w, rest2) := rest.span isWordChar
        decide (w ≠ []) && fieldSuffixes fuel rest2
      | '[' :: rest =>
        (match rest.span (fun c => c ≠ ']') with
         | (inside, _ :: rest2) => decide (inside ≠ []) && fieldSuffixes fuel rest2
         | (_, []) => false)
      | _ => false

/-- `field_spec = re.compile(r"^(\d+|\w+)(\.\w+|\[[^]]+\])*$")`.  Since
`\d+` names are a sub-case of `\w+` and the suffixes cannot start with a
word character, the leading alternation reduces to one greedy `\w+`. -/
def fieldSpecMatch (s : String) : Bool :=
  let (w, rest) := s.data.span isWordChar
  decide (w ≠ []) && fieldSuffixes (rest.length + 1) rest

/-- `[<>=^]`. -/
def isAlignChar (c : Char) : Bool := c = '<' || c = '>' || c = '=' || c = '^'

/-- `[bcdefgnosx%]` under `re.IGNORECASE`. -/
def isTypeChar (c : Char) : Bool :=
  c.toLower = 'b' || c.toLower = 'c' || c.toLower = 'd' || c.toLower = 'e' ||
  c.toLower = 'f' || c.toLower = 'g' || c.toLower = 'n' || c.toLower = 'o' ||
  c.toLower = 's' || c.toLower = 'x' || c = '%'

/-- Consume `(\d+|{\w+})` if it matches at the front, else return the
input unchanged (the group is used with `?` in `fmt_spec`). -/
def consumeIntOrField (cs : List Char) : List Char :=
  match cs with
  | c :: rest =>
    if c.isDigit then rest.dropWhile (fun d => d.isDigit)
    else if c = LBRACE then
      match rest.span isWordChar with
      | (w, b :: rest2) => if w ≠ [] ∧ b = RBRACE then rest2 else cs
      | (_, []) => cs
    else cs
  | [] => []

/-- `fmt_spec = re.compile(r"^(.?[<>=^])?[+ -]?#?0?(\d+|{\w+})?[,_]?`
`(\.(\d+|{\w+}))?[bcdefgnosx%]?$", re.IGNORECASE)` as a scan.  Each
optional group's first characters are disjoint from what follows it, so
committing greedily recognizes the same language as the backtracking
regex (the only two-way choice, fill-plus-align versus bare align, is
resolved by one character of lookahead exactly as backtracking would). -/
def fmtSpecMatch (s : String) : Bool :=
  let cs := s.data
  -- (.?[<>=^])?  (`.` does not match a newline)
  let cs :=
    match cs with
    | a :: b :: rest =>
      if isAlignChar b ∧ a ≠ '\n' then rest
      else if isAlignChar a then b :: rest
      else a :: b :: rest
    | [a] => if isAlignChar a then [] else [a]
    | [] => []
  -- [+ -]?
  let cs :=
    match cs with
    | c :: rest => if c = '+' ∨ c = ' ' ∨ c = '-' then rest else c :: rest
    | [] => []
  -- #?
  let cs := match cs with
    | c :: rest => if c = '#' then rest else c :: rest
    | [] => []
  -- 0?
  let cs := match cs with
    | c :: rest => if c = '0' then rest else c :: rest
    | [] => []
  -- (\d+|{\w+})?
  let cs := consumeIntOrField cs
  -- [,_]?
  let cs := match cs with
    | c :: rest => if c = ',' ∨ c = '_' then rest else c :: rest
    | [] => []
  -- (\.(\d+|{\w+}))?  then  [bcdefgnosx%]?$
  let step (cs : List Char) : Bool :=
    match cs with
    | c :: rest => if isTypeChar c then atEndPy rest else atEndPy (c :: rest)
    | [] => true
  match cs with
  | '.' :: rest =>
    let rest2 := consumeIntOrField rest
    if rest2 = rest then false else step rest2
  | _ => step cs

/-- Insert into the model of a Python `set` (first-insertion order). -/
def insertSet (x : String) (l : List String) : List String :=
  if x ∈ l then l else l ++ [x]

/-- The per-token checks of `_validate_fmt`'s loop, accumulating the set
of field names. -/
def validateTok (acc : List String) (tok : Tok) : Except String (List String) :=
  match tok.field with
  | none => .ok acc
  | some f => do
    let acc' ←
      if f.name ≠ "" then
        if fieldSpecMatch f.name then .ok (insertSet f.name acc)
        else .error ("Invalid format: invalid field name/expression: " ++ f.name)
      else .ok acc
    match f.conv with
    | some c =>
      if c = 'r' ∨ c = 's' ∨ c = 'a' then .ok ()
      else .error ("Invalid format: invalid conversion: " ++ String.singleton c)
    | none => .ok ()
    if f.spec ≠ "" ∧ ¬ fmtSpecMatch f.spec then
      .error ("Invalid format: bad specifier: " ++ f.spec)
    else .ok acc'

/-- `_validate_fmt`: parse, check every field name / conversion / spec,
require at least one field, then require every (underscore-stripped)
field name to be a valid flag or a declared default key. -/
def validateFmt (fmt : String) (extraKeys : List String) : Except String Unit := do
  let toks ← (parseFmt fmt).mapError (fun e => "Invalid format: " ++ e)
  let fields ← toks.foldlM validateTok []
  if fields = [] then .error "Invalid format: no fields"
  else
    let stripped := fields.map (fun f => if strStartsWith f "_" then strDrop1 f else f)
    let strippedSet := stripped.foldl (fun acc f => insertSet f acc) []
    let missing := strippedSet.filter (fun f => ¬ (f ∈ VALID_FLAGS ++ extraKeys))
    if missing ≠ [] then
      .error ("Missing defaults: " ++ String.intercalate ", " missing)
    else .ok ()

/-! ## `Formatter` (`_formatter.py`) -/

/-- Python truthiness of a string. -/
def strTruthy (s : String) : Bool := s ≠ ""

/-- Python truthiness of an optional string attribute (`None` and `""`
are both falsy). -/
def pyOptTruthy (o : Option String) : Bool :=
  match o with
  | some s => s ≠ ""
  | none => false

/-- The state a constructed `Formatter` carries.
`stream_supports_color` is modelled as `Option Bool` (`none` = unset; the
degenerate int values `0`/`1` the source also tolerates are not
modelled). -/
structure FmtState where
  force_ansi : Bool := false
  ssc : Option Bool := none
  fmts : LC String
  backup_fmts : Option (LC String) := none
  palettes : List (String × Palette) := []
  defaults : List (String × String) := []
  default_keys : List String := []
  datefmt : Option String := none
deriving Repr

/-- `_format_defaults`: empty-string marker pairs for the user default
keys, all enter entries before all exit entries. -/
def formatDefaults (keys : List String) : List (String × String) :=
  if keys = [] then []
  else
    keys.map (fun n => (n ++ String.singleton STX, "")) ++
      keys.map (fun n => (n ++ String.singleton ETX, ""))

/-- `Formatter._ensure_ssc_set`. -/
def ensureSsc (st : FmtState) : Except String Unit :=
  match st.ssc with
  | some _ => .ok ()
  | none => .error "ColorFormatter.stream_supports_color must be a boolean"

/-- `Formatter._get_fmt_str`. -/
def getFmtStr (st : FmtState) (levelno : Int) : Except String (Option String) := do
  ensureSsc st
  if st.force_ansi = true ∨ st.ssc = some true then
    st.fmts.get strTruthy (.int levelno) none
  else if st.ssc = some false ∧ st.backup_fmts = none then
    st.fmts.get strTruthy (.int levelno) none
  else do
    let b ← (st.backup_fmts.getD {}).get strTruthy (.int levelno) none
    match b with
    | some v =>
      if strTruthy v then .ok (some v)
      else st.fmts.get strTruthy (.int levelno) none
    | none => st.fmts.get strTruthy (.int levelno) none

/-- A log record, as far as the formatter reads and writes it.  `msg` is
the already-rendered message (`record.getMessage()`, an external
concern); `exc_info` is modelled as the traceback text that
`traceback.print_exception` would produce for it (the record source and
the traceback renderer are external collaborators); `fields` holds the
remaining `__dict__` entries as displayable strings. -/
structure Record where
  levelno : Int
  msg : String
  fields : List (String × String) := []
  message : Option String := none
  asctime : Option String := none
  exc_info : Option String := none
  exc_text : Option String := none
  stack_info : Option String := none
deriving Repr

/-- `record.__dict__` as a substitution source. -/
def Record.dict (r : Record) : List (String × String) :=
  r.fields ++
    [("levelno", toString r.levelno), ("msg", r.msg),
     ("exc_info", r.exc_info.getD "None"),
     ("exc_text", r.exc_text.getD "None"),
     ("stack_info", r.stack_info.getD "None")] ++
    (match r.message with | some m => [("message", m)] | none => []) ++
    (match r.asctime with | some a => [("asctime", a)] | none => [])

/-- `Formatter._get_fmt_kwargs`: the substitution table, merged left to
right with later entries shadowing earlier ones (like Python `|`). -/
def getFmtKwargs (st : FmtState) (r : Record) :
    Except String (List (String × String)) := do
  ensureSsc st
  if st.force_ansi = true ∨ st.ssc = some true then
    .ok (colorFormatDefaults ++ formatDefaults st.default_keys ++
      parsePalettes r.levelno st.palettes ++ st.defaults ++ r.dict)
  else if st.ssc = some false ∧ st.backup_fmts = none then
    .ok (colorFormatDefaults ++ formatDefaults st.default_keys ++
      st.defaults ++ r.dict)
  else
    .ok (st.defaults ++ r.dict)

/-- Errors of the (external) `str.format` machinery: a `KeyError` (which
`formatMessage` converts) or any other exception. -/
inductive PyFormatError where
  | keyError (k : String)
  | otherError (m : String)
deriving DecidableEq, Repr

/-- `string.Formatter.get_field` restricted to keyword lookups, which is
all `formatMessage` supplies (no positional arguments); dotted/indexed
access paths on record values are outside the modelled subset. -/
def pyGetField (name : String) (kwargs : List (String × String)) :
    Except PyFormatError String :=
  let first := String.mk (name.data.takeWhile (fun c => c ≠ '.' ∧ c ≠ '['))
  let rest := name.data.drop first.data.length
  if first = "" ∨ first.data.all (fun c => c.isDigit) then
    .error (.otherError
      "Replacement index out of range: formatMessage passes no positional arguments")
  else
    match lookupLast kwargs first with
    | none => .error (.keyError first)
    | some v =>
      if rest = [] then .ok v
      else .error (.otherError
        "attribute/index access on a record value is outside the modelled subset")

/-- `convert_field`: no conversion, `!s` (identity on strings), `!r`/`!a`
(modelled as quoting; the record values exercised carry no quotes or
non-ASCII). -/
def convApply (conv : Option Char) (v : String) : Except PyFormatError String :=
  match conv with
  | none => .ok v
  | some c =>
    if c = 's' then .ok v
    else if c = 'r' ∨ c = 'a' then
      .ok (String.singleton SQ ++ v ++ String.singleton SQ)
    else .error (.otherError ("Unknown conversion specifier " ++ String.singleton c))

/-- Build `n` copies of a fill character. -/
def fillStr (c : Char) (n : Nat) : String := String.mk (List.replicate n c)

/-- `format(value, spec)` for string values, on the subset
`[[fill]align][width][s]` (empty spec is the identity, as in Python);
other specs are outside the modelled subset. -/
def specApply (spec v : String) : Except PyFormatError String :=
  if spec = "" then .ok v
  else
    let strAlign (c : Char) : Bool := c = '<' || c = '>' || c = '^'
    let (fill, align, rest) :=
      match spec.data with
      | a :: b :: rest => if strAlign b then (a, b, rest)
        else if strAlign a then (' ', a, b :: rest)
        else (' ', '<', a :: b :: rest)
      | [a] => if strAlign a then (' ', a, ([] : List Char)) else (' ', '<', [a])
      | [] => (' ', '<', ([] : List Char))
    let width := rest.takeWhile (fun c => c.isDigit)
    let rest := rest.drop width.length
    let rest := match rest with
      | 's' :: r => r
      | r => r
    if rest ≠ [] then
      .error (.otherError ("format spec outside the modelled subset: " ++ spec))
    else
      let w := width.foldl (fun n c => n * 10 + (c.toNat - 48)) 0
      if v.length ≥ w then .ok v
      else
        let pad := w - v.length
        if align = '>' then .ok (fillStr fill pad ++ v)
        else if align = '^' then
          .ok (fillStr fill (pad / 2) ++ v ++ fillStr fill (pad - pad / 2))
        else .ok (v ++ fillStr fill pad)

/-- `string.Formatter._vformat` over keyword arguments: literal text
passes through; each field is resolved, converted, and formatted, with
the format spec itself recursively formatted (Python allows a bounded
nesting depth, modelled by the fuel). -/
def pyVFormat (kwargs : List (String × String)) :
    Nat → String → Except PyFormatError String
  | 0, _ => .error (.otherError "Max string recursion exceeded")
  | depth + 1, fmt => do
    let toks ← (parseFmt fmt).mapError (fun e => .otherError e)
    toks.foldlM
      (fun acc tok => do
        let fieldPart ←
          match tok.field with
          | none => pure ""
          | some f => do
            let v ← pyGetField f.name kwargs
            let v ← convApply f.conv v
            let specStr ← pyVFormat kwargs depth f.spec
            specApply specStr v
        pure (acc ++ tok.literal ++ fieldPart))
      ""

/-- `fmt.format(**kwargs)`. -/
def pyStrFormat (fmt : String) (kwargs : List (String × String)) :
    Except PyFormatError String :=
  pyVFormat kwargs 3 fmt

/-- `Formatter.formatMessage`: format with the assembled table, turning a
`KeyError` into the library's `ValueError`. -/
def formatMessage (st : FmtState) (fmt : String) (r : Record) :
    Except String String := do
  let kwargs ← getFmtKwargs st r
  match pyStrFormat fmt kwargs with
  | .ok s => .ok s
  | .error (.keyError k) =>
    .error ("Formatting field not found in record: KeyError(" ++
      String.singleton SQ ++ k ++ String.singleton SQ ++ ")")
  | .error (.otherError m) => .error m

/-- Substring containment (`str.find(...) >= 0`). -/
def containsSub (pat : List Char) : List Char → Bool
  | [] => startsList pat []
  | c :: cs => startsList pat (c :: cs) || containsSub pat cs

/-- `Formatter.usesTime`: the format string contains `"{asctime"`. -/
def usesTime (fmt : String) : Bool := containsSub "\x7basctime".data fmt.data

/-- Drop one trailing newline (`if s[-1:] == "\n": s = s[:-1]`). -/
def stripTrailingNL (s : String) : String :=
  match s.data.getLast? with
  | some c => if c = '\n' then String.mk s.data.dropLast else s
  | none => s

/-- `Formatter.formatException` applied to the rendered traceback text:
strip one trailing newline; in no-color mode return it bare; otherwise
wrap it in the `exc_text` palette's enter/exit when one is registered. -/
def formatException (st : FmtState) (tb : String) (levelno : Int) : String :=
  let s := stripTrailingNL tb
  if st.force_ansi = false ∧ st.ssc = some false then s
  else
    match lookupLast st.palettes "exc_text" with
    | none => s
    | some p => p.enter levelno ++ s ++ p.exit levelno

/-- The block-append step of `format`: add a newline only when the
running string does not already end with one, then the block. -/
def appendWithNewline (s block : String) : String :=
  (if lastChar? s = some '\n' then s else s ++ "\n") ++ block

/-- Number of consecutive newlines at the end of a string. -/
def trailingNewlines (s : String) : Nat :=
  (s.data.reverse.takeWhile (fun c => c = '\n')).length

/-- `logging.Formatter.formatStack` (identity on the captured text). -/
def formatStack (s : String) : String := s

/-- `record.message = record.getMessage()`. -/
def setMessage (r : Record) : Record := { r with message := some r.msg }

/-- The conditional timestamp caching of `format`: set `record.asctime`
only when the chosen format string references `{asctime`. -/
def setTime (tf : Record → Option String → String) (st : FmtState)
    (fmt : String) (r : Record) : Record :=
  if usesTime fmt then { r with asctime := some (tf r st.datefmt) } else r

/-- The exception-caching step of `format`: when the record carries
`exc_info` and no truthy `exc_text`, render the exception once into
`exc_text` and clear `exc_info`. -/
def cacheExc (st : FmtState) (r : Record) : Record :=
  if r.exc_info.isSome then
    if ¬ pyOptTruthy r.exc_text then
      { r with
        exc_text := some (formatException st (r.exc_info.getD "") r.levelno),
        exc_info := none }
    else r
  else r

/-- `self.usesTime(fmt)` is called on the selected format string without
a `None` check; a level with no format raises (`AttributeError`). -/
def requireFmt (fmtO : Option String) : Except String String :=
  match fmtO with
  | some f => .ok f
  | none => .error "AttributeError: NoneType has no attribute find"

/-- `Formatter.format`.  `tf` is the external time formatter
(`formatTime` with the configured date format).  Returns the rendered
text together with the updated record (Python mutates the record in
place). -/
def Formatter.format (tf : Record → Option String → String) (st : FmtState)
    (r : Record) : Except String (String × Record) := do
  let r := setMessage r
  let fmtO ← getFmtStr st r.levelno
  let fmt ← requireFmt fmtO
  let r := setTime tf st fmt r
  let s ← formatMessage st fmt r
  let r := cacheExc st r
  let s := if pyOptTruthy r.exc_text then appendWithNewline s (r.exc_text.getD "") else s
  let s := if pyOptTruthy r.stack_info then
      appendWithNewline s (formatStack (r.stack_info.getD ""))
    else s
  .ok (s, r)

/-! ## `Formatter.__init__`'s format preparation -/

/-- `Formatter._ensure_sufficient_formats`. -/
def ensureSufficientFormats (fmts : LC String) : Except String Unit :=
  if fmts.default.isSome then .ok ()
  else if (fmts.iterAll strTruthy).all (fun x => x.isSome) then .ok ()
  else .error "all levels in fmt must have a format string (either set the default or provide a value for each level)"

/-- `Formatter._ensure_format_validity`: validate every level's resolved
format string. -/
def ensureFormatValidity (fmts : LC String) (extras : List String) :
    Except String Unit :=
  (fmts.iterAll strTruthy).foldlM
    (fun _ x =>
      match x with
      | some f => validateFmt f extras
      | none => .ok ())
    ()

/-- One iteration of `_update_formats`'s loop: compile the attribute if
it is not `None`. -/
def updateStep (acc : LC String) (a : LCAttr) : Except String (LC String) :=
  match acc.attr a with
  | some v => do
    let cv ← toColorFormat v
    .ok (acc.setAttr a (some cv))
  | none => .ok acc

/-- `Formatter._update_formats`: replace each non-`None` attribute with
its color-compiled form, in the source loop's order. -/
def updateFormats (c : LC String) : Except String (LC String) :=
  allAttrs.foldlM updateStep c

/-- One iteration of `_fix_backups`'s `make_new=True` loop: strip the
main container's raw attribute into the backup when it is truthy. -/
def newBackupStep (fmts : LC String) (acc : LC String) (a : LCAttr) :
    Except String (LC String) :=
  match fmts.attr a with
  | some v =>
    if strTruthy v then do
      let sv ← stripColor v
      .ok (acc.setAttr a (some sv))
    else .ok acc
  | none => .ok acc

/-- `Formatter._fix_backups` with `make_new=True`: build a fresh
container holding `strip_color` of every truthy raw attribute. -/
def fixBackupsNew (fmts : LC String) : Except String (LC String) :=
  allAttrs.foldlM (newBackupStep fmts) {}

/-- One iteration of `_fix_backups`'s `make_new=False` loop: when the
backup's lookup for a level is falsy, copy the main container's lookup
into that level's slot. -/
def fixBackupStep (fmts : LC String) (acc : LC String) (a : LCAttr) :
    LC String :=
  match acc.levelLookup strTruthy a with
  | some _ => acc
  | none => acc.setAttr a (fmts.levelLookup strTruthy a)

/-- `Formatter._fix_backups` with `make_new=False`: for each level whose
backup lookup (value-or-default) is falsy, copy the main container's
lookup into the backup's level slot. -/
def fixBackupsExisting (fmts bk : LC String) : LC String :=
  levelAttrs.foldl (fixBackupStep fmts) bk

/-- The format-preparation pipeline of `Formatter.__init__` (lines
105–113): sufficiency check, validation, backup fixing, then in-place
compilation of the main formats — returned as the pair (new `fmts`
state, new `backup_fmts` state). -/
def initFmts (fmts : LC String) (backup? : Option (LC String))
    (defaultKeys : List String) : Except String (LC String × LC String) := do
  ensureSufficientFormats fmts
  ensureFormatValidity fmts defaultKeys
  match backup? with
  | some bk => do
    ensureFormatValidity bk defaultKeys
    let bk' := fixBackupsExisting fmts bk
    let fmts' ← updateFormats fmts
    .ok (fmts', bk')
  | none => do
    let bk' ← fixBackupsNew fmts
    let fmts' ← updateFormats fmts
    .ok (fmts', bk')

/-- `Formatter.__init__` in full: prepare the formats and assemble the
state.  Note `backup_fmts` is always a container afterwards (a fresh one
is created when the caller passed none), never `None`. -/
def mkFormatter (fmts : LC String) (datefmt : Option String)
    (defaults : List (String × String)) (force_ansi : Bool)
    (backup? : Option (LC String)) (palettes : List (String × Palette)) :
    Except String FmtState := do
  let dkeys := (defaults.map (fun p => p.1)).foldl (fun acc k => insertSet k acc) []
  let (f', b') ← initFmts fmts backup? dkeys
  .ok { force_ansi := force_ansi, ssc := none, fmts := f',
        backup_fmts := some b', palettes := palettes, defaults := defaults,
        default_keys := dkeys, datefmt := datefmt }

/-! ## Concrete instances and derived notions used by the theorems -/

/-- The level number each level attribute corresponds to. -/
def levelOfAttr : LCAttr → Option Int
  | .debug => some 10
  | .info => some 20
  | .warning => some 30
  | .error => some 40
  | .critical => some 50
  | .default => none

/-- The literal/marker/field/marker quadruple appended for a plain field
outside a group. -/
def plainEmissions (lit name spec : String) (conv : Option Char) : List Val :=
  (if lit = "" then [] else [Val.str lit]) ++
    [Val.str (formatStatement (some (name ++ String.singleton STX)) "" ""),
     Val.str (formatStatement (some name) (conversionStr conv) (formatSpecStr spec)),
     Val.str (formatStatement (some (name ++ String.singleton ETX)) "" "")]

/-- A one-template container (`{name}` for every level via the default),
as a caller would hand to `Formatter.__init__` with no backups. -/
def lc0 : LC String := { default := some "\x7bname\x7d" }

/-- What `__init__` turns `lc0`'s formats into: the compiled form. -/
def lc0C : LC String :=
  { default := some "\x7bname\x02\x7d\x7bname\x7d\x7bname\x03\x7d" }

/-- What `__init__` derives as `lc0`'s backup set: the stripped form. -/
def lc0B : LC String := { default := some "\x7bname\x7d" }

/-- Constant external time formatter used by concrete render runs. -/
def tfConst : Record → Option String → String := fun _ _ => "T"

/-- A `{message}`-only template container. -/
def lcMsg : LC String := { default := some "\x7bmessage\x7d" }

/-- The compiled form `__init__` produces from `lcMsg`. -/
def fmtsMsgC : LC String :=
  { default := some "\x7bmessage\x02\x7d\x7bmessage\x7d\x7bmessage\x03\x7d" }

/-- The auto-derived backup for `lcMsg`. -/
def bkMsg : LC String := { default := some "\x7bmessage\x7d" }

/-- A color-capable formatter state over the `{message}` template. -/
def st8 : FmtState :=
  { force_ansi := false, ssc := some true, fmts := fmtsMsgC,
    backup_fmts := some bkMsg }

/-- A record whose rendered body ends in two newlines and which carries
exception text. -/
def r8 : Record := { levelno := 20, msg := "x\n\n", exc_text := some "E" }

/-- The relation `_update_formats` establishes attribute-wise: a raw
template is replaced by its compiled form, `None` stays `None`. -/
def compiledAttr (x y : Option String) : Prop :=
  match x with
  | some raw => ∃ cv, toColorFormat raw = .ok cv ∧ y = some cv
  | none => y = none

/-- The main container a caller hands over together with a partial
backup container: `{message}` for every level via the default. -/
def bk9 : LC String := { info := some "\x7bname\x7d" }

/-- The state `bk9` is left in after construction: the missing levels are
filled with `lcMsg`'s lookup, the supplied `INFO` entry is kept. -/
def b9 : LC String :=
  { debug := some "\x7bmessage\x7d", info := some "\x7bname\x7d",
    warning := some "\x7bmessage\x7d", error := some "\x7bmessage\x7d",
    critical := some "\x7bmessage\x7d", default := none }

/-- The state and record for the C10 witness: color forced on, a
`{message}` template, a record with exception info and no cached text. -/
def st10 : FmtState :=
  { force_ansi := true, ssc := some true, fmts := fmtsMsgC,
    backup_fmts := some bkMsg }

/-- The pre-render record for the C10 witness. -/
def r10 : Record := { levelno := 20, msg := "hi", exc_info := some "boom\n" }

/-- The post-render record for the C10 witness. -/
def r10x : Record :=
  { levelno := 20, msg := "hi", fields := [], message := some "hi",
    asctime := none, exc_info := none, exc_text := some "boom",
    stack_info := none }

/-! ## Helper lemmas -/

theorem except_bind_ok {ε α β : Type} {x : Except ε α} {f : α → Except ε β}
    {b : β} : x.bind f = .ok b ↔ ∃ a, x = .ok a ∧ f a = .ok b := by
  cases x <;> simp [Except.bind]

theorem foldlM_append_except {α σ : Type} (f : σ → α → Except String σ)
    (l₁ l₂ : List α) (s : σ) :
    (l₁ ++ l₂).foldlM f s = (l₁.foldlM f s).bind (fun s' => l₂.foldlM f s') := by
  induction l₁ generalizing s with
  | nil => rfl
  | cons a l ih =>
    simp only [List.cons_append, List.foldlM_cons]
    cases h : f s a with
    | error e => rfl
    | ok v => exact ih v

theorem pyOr_some_truthy {α : Type} {t : α → Bool} {x y : Option α} {v : α}
    (h : pyOr t x y = some v) (hy : y = none) : t v = true := by
  subst hy
  cases x with
  | none => simp [pyOr] at h
  | some w =>
    by_cases hw : t w = true
    · simp [pyOr, hw] at h; simpa [← h]
    · simp [pyOr, hw] at h

theorem levelLookup_truthy {t : α → Bool} {c : LC α} {a : LCAttr} {v : α}
    (h : c.levelLookup t a none = some v) : t v = true := by
  unfold LC.levelLookup lcGet at h
  cases hx : c.attr a with
  | some w =>
    rw [hx] at h
    by_cases hw : t w = true
    · simp [pyOr, hw] at h; simpa [← h]
    · simp [pyOr, hw] at h
      exact pyOr_some_truthy h rfl
  | none =>
    rw [hx] at h
    simp [pyOr] at h
    exact pyOr_some_truthy h rfl

theorem attr_setAttr_same (c : LC α) (a : LCAttr) (v : Option α) :
    (c.setAttr a v).attr a = v := by
  cases a <;> rfl

theorem attr_setAttr_ne (c : LC α) (a b : LCAttr) (v : Option α)
    (h : a ≠ b) : (c.setAttr a v).attr b = c.attr b := by
  cases a <;> cases b <;> first | rfl | exact absurd rfl h

theorem default_setAttr_level (c : LC α) (a : LCAttr) (v : Option α)
    (h : a ≠ .default) : (c.setAttr a v).default = c.default := by
  cases a <;> first | rfl | exact absurd rfl h

/-- `levelLookup` reads only the level slot and the container default. -/
theorem levelLookup_congr {t : α → Bool} {c c' : LC α} {a : LCAttr}
    (h1 : c.attr a = c'.attr a) (h2 : c.default = c'.default) :
    c.levelLookup t a none = c'.levelLookup t a none := by
  unfold LC.levelLookup lcGet
  rw [h1, h2]

theorem verify_attr_of_level {a : LCAttr} {n : Int}
    (h : levelOfAttr a = some n) :
    verifyLevel (.int n) = .ok n ∧ attrOfLevel n = some a := by
  cases a <;> simp_all [levelOfAttr] <;> subst h <;> simp [verifyLevel, attrOfLevel]

theorem pyOr_none {t : α → Bool} {x : Option α}
    (h : pyOr t x none = none) (y : Option α) : pyOr t x y = y := by
  cases x with
  | none => rfl
  | some w =>
    by_cases hw : t w = true
    · simp [pyOr, hw] at h
    · simp [pyOr, hw]

theorem lc_get_eq {α : Type} (truthy : α → Bool) (c : LC α) {a : LCAttr}
    {n : Int} (ha : levelOfAttr a = some n) (fb : Option α) :
    c.get truthy (.int n) fb =
      .ok (pyOr truthy (c.attr a) (pyOr truthy c.default fb)) := by
  obtain ⟨hv, hao⟩ := verify_attr_of_level ha
  unfold LC.get
  rw [hv]
  simp only [hao]
  rfl

theorem convStep_plain_field (s : ConvState) (lit name spec : String)
    (conv : Option Char) (hopen : s.awaiting = none) (hne : name ≠ "")
    (hund : strStartsWith name "_" = false) (hent : name ≠ "enter")
    (hex : name ≠ "exit") :
    convStep s ⟨lit, some ⟨name, conv, spec⟩⟩ =
      .ok ⟨s.values ++ plainEmissions lit name spec conv, none⟩ := by
  unfold convStep addFlag plainEmissions
  by_cases hl : lit = "" <;>
    simp [hl, hne, hund, hent, hex, hopen, List.append_assoc]

/-! ## The claims -/

/-- C1: at every raw-template position where a plain field (non-empty
name, not `enter`, not `exit`, not underscore-prefixed) is processed with
no group open, `to_color_format` emits the enter-marker `{name\x02}`,
then the field reference with its conversion and format spec preserved,
then the exit-marker `{name\x03}`, in that order, and continues with no
group open. -/
theorem to_color_format_plain_field_marker_triple
    (fmt : String) (toks pre post : List Tok) (lit name spec : String)
    (conv : Option Char) (s : ConvState)
    (hparse : parseFmt fmt = .ok toks)
    (hsplit : toks = pre ++ Tok.mk lit (some ⟨name, conv, spec⟩) :: post)
    (hpre : runTokens convInit pre = .ok s)
    (hopen : s.awaiting = none)
    (hne : name ≠ "") (hund : strStartsWith name "_" = false)
    (hent : name ≠ "enter") (hex : name ≠ "exit") :
    toColorFormat fmt =
      (runTokens ⟨s.values ++ plainEmissions lit name spec conv, none⟩ post).map
        (fun st => String.join (st.values.map Val.render)) := by
  unfold toColorFormat
  rw [hparse]
  show (runTokens convInit toks).bind _ = _
  subst hsplit
  unfold runTokens at hpre ⊢
  rw [foldlM_append_except, hpre]
  show (List.foldlM convStep s _).bind _ = _
  simp only [List.foldlM_cons]
  rw [convStep_plain_field s lit name spec conv hopen hne hund hent hex]
  show (List.foldlM convStep _ post).bind _ = _
  cases List.foldlM convStep
      (⟨s.values ++ plainEmissions lit name spec conv, none⟩ : ConvState) post <;>
    rfl

/-- C1 witness: the theorem applied to the template `"a{x}b"` at its only
field, position 0, evaluating the compiled output. -/
theorem to_color_format_plain_field_marker_triple_witness :
    toColorFormat "a\x7bx\x7db" = .ok "a\x7bx\x02\x7d\x7bx\x7d\x7bx\x03\x7db" := by
  have h := to_color_format_plain_field_marker_triple "a\x7bx\x7db"
    [Tok.mk "a" (some ⟨"x", none, ""⟩), Tok.mk "b" none]
    [] [Tok.mk "b" none] "a" "x" "" none convInit
    (by rfl) (by rfl) (by rfl) (by rfl) (by decide) (by rfl) (by decide) (by decide)
  rw [h]; rfl

/-- C2 (code evidence): `to_color_format` does not fail on a template
whose `{enter}` group is still open at end of input; it returns a
compiled string — with the enter marker but no exit marker when the group
was bound, and with a literal `None`-named marker when it was not. -/
theorem to_color_format_unterminated_group_returns_ok :
    toColorFormat "\x7benter\x7d\x7bname\x7d" =
      .ok "\x7bname\x02\x7d\x7bname\x7d" ∧
    toColorFormat "\x7benter\x7d" = .ok "\x7bNone\x02\x7d" := ⟨rfl, rfl⟩

/-- C3 (code evidence): `strip_color` appends a spurious `"{}"` for the
trailing literal-only parse tuple, so neither `stripColor t` nor
`stripColor (compile t)` recovers `t` for the plain template `"a{x}b"`
(one ordinary field, literal text on both sides, no pseudo-fields). -/
theorem strip_color_appends_spurious_empty_field :
    stripColor "a\x7bx\x7db" = .ok "a\x7bx\x7db\x7b\x7d" ∧
    toColorFormat "a\x7bx\x7db" = .ok "a\x7bx\x02\x7d\x7bx\x7d\x7bx\x03\x7db" ∧
    stripColor "a\x7bx\x02\x7d\x7bx\x7d\x7bx\x03\x7db" = .ok "a\x7bx\x7db\x7b\x7d" ∧
    (("a\x7bx\x7db\x7b\x7d" : String) == "a\x7bx\x7db") = false :=
  ⟨rfl, rfl, rfl, by decide⟩

/-- C5: `compile` fails on `"{enter}{exit}"` with the group-content
error, on a nested `{enter}` with the nesting error, and on `"{exit}"`
with no prior `{enter}` with the unmatched-exit error. -/
theorem to_color_format_rejects_malformed_groups :
    toColorFormat "\x7benter\x7d\x7bexit\x7d" =
      .error "exit flag used without a contained flag; make sure you have at least one flag between your enter and exit flags" ∧
    toColorFormat "\x7benter\x7d\x7ba\x7d\x7benter\x7d\x7bb\x7d\x7bexit\x7d\x7bexit\x7d" =
      .error "new enter flag found before previous enter flag was closed" ∧
    toColorFormat "\x7bexit\x7d" = .error "exit flag used before enter flag" :=
  ⟨rfl, rfl, rfl⟩

/-- C6 counterexample: a level value that is present (`some ""`) but
falsy is *not* returned when the container default is also set —
`LevelContainer._get` uses Python `or`, so the default `"d"` wins. -/
theorem lc_get_present_empty_value_not_returned :
    LC.get strTruthy ({ info := some "", default := some "d" } : LC String)
      (.int 20) none = .ok (some "d") ∧
    ((some "d" : Option String) == some "") = false :=
  ⟨rfl, by decide⟩

/-- C6 (amended): for every container and valid level, lookup returns the
level value when it is present *and truthy*; when the level slot is
absent or falsy, the container default when present and truthy; otherwise
the per-call fallback exactly as supplied (`none` both for "no fallback"
and "no value").  A truthy level value wins even when the default is also
set. -/
theorem lc_get_precedence {α : Type} (truthy : α → Bool) (c : LC α)
    (a : LCAttr) (n : Int) (fb : Option α) (ha : levelOfAttr a = some n) :
    (∀ v, c.attr a = some v → truthy v = true →
      c.get truthy (.int n) fb = .ok (some v)) ∧
    (pyOr truthy (c.attr a) none = none →
      ∀ d, c.default = some d → truthy d = true →
        c.get truthy (.int n) fb = .ok (some d)) ∧
    (pyOr truthy (c.attr a) none = none → pyOr truthy c.default none = none →
      c.get truthy (.int n) fb = .ok fb) := by
  have hg := lc_get_eq truthy c ha fb
  refine ⟨?_, ?_, ?_⟩
  · intro v hv' ht
    rw [hg, hv']
    simp [pyOr, ht]
  · intro hx d hd ht
    rw [hg, pyOr_none hx, hd]
    simp [pyOr, ht]
  · intro hx hd
    rw [hg, pyOr_none hx, pyOr_none hd]

/-- C6 witness: the amended theorem applied to a container with a truthy
`INFO` value and a default, returning the level value. -/
theorem lc_get_precedence_witness :
    LC.get strTruthy ({ info := some "i", default := some "d" } : LC String)
      (.int 20) none = .ok (some "i") :=
  (lc_get_precedence strTruthy { info := some "i", default := some "d" }
    .info 20 none rfl).1 "i" rfl (by decide)

/-- C7: for every constructed palette and every level number, `exit` is
the reset sequence exactly when `enter` is non-empty, and is empty when
`enter` is empty; in particular `exit` is never non-empty while `enter`
is empty. -/
theorem palette_exit_reset_iff_enter_nonempty (lc : LC ColorVal) (levelno : Int) :
    ((Palette.ofLC lc).exit levelno = "\x1b[0m" ↔
      (Palette.ofLC lc).enter levelno ≠ "") ∧
    ((Palette.ofLC lc).enter levelno = "" →
      (Palette.ofLC lc).exit levelno = "") := by
  unfold Palette.exit Palette.enter
  cases h : lookupLast (Palette.ofLC lc).colors levelno with
  | none => simp
  | some v =>
    by_cases hv : v = "" <;> simp [hv]

/-- C7 witness: a palette with a single code on `DEBUG`; its `exit` at
level 10 is the reset sequence because its `enter` there is non-empty. -/
theorem palette_exit_reset_iff_enter_nonempty_witness :
    (Palette.ofLC { debug := some (.single "35") }).exit 10 = "\x1b[0m" :=
  (palette_exit_reset_iff_enter_nonempty { debug := some (.single "35") } 10).1.mpr
    (by decide)

/-- C4 counterexample: after constructing with `lc0` and no backup set,
with capability `false` and force-color off, `_get_fmt_str` returns the
auto-derived *stripped* backup template `"{name}"`, not the color-mode
compiled template (which the container would have returned) — the
`backup_fmts is None` branch is dead because `__init__` always creates a
backup container. -/
theorem get_fmt_str_no_backup_returns_stripped :
    initFmts lc0 none [] = .ok (lc0C, lc0B) ∧
    getFmtStr { force_ansi := false, ssc := some false, fmts := lc0C,
                backup_fmts := some lc0B } 20 = .ok (some "\x7bname\x7d") ∧
    lc0C.get strTruthy (.int 20) none =
      .ok (some "\x7bname\x02\x7d\x7bname\x7d\x7bname\x03\x7d") ∧
    ((some "\x7bname\x7d" : Option String) ==
      some "\x7bname\x02\x7d\x7bname\x7d\x7bname\x03\x7d") = false :=
  ⟨rfl, rfl, rfl, by decide⟩

/-- C4 (amended): when the capability flag is resolved to `false`,
force-color is off, and the caller supplied no backup set, `__init__` has
already auto-derived a backup container by `strip_color`, and
`_get_fmt_str` returns that backup's entry for the level, falling back to
the color-mode compiled template only when the backup lookup is falsy;
the result is unstyled because the stripped template has no markers. -/
theorem get_fmt_str_no_backup_uses_derived_backup
    (fmts f' b' : LC String) (a : LCAttr) (n : Int)
    (h : initFmts fmts none [] = .ok (f', b'))
    (ha : levelOfAttr a = some n) :
    fixBackupsNew fmts = .ok b' ∧
    getFmtStr { force_ansi := false, ssc := some false, fmts := f',
                backup_fmts := some b' } n =
      .ok (pyOr strTruthy (b'.levelLookup strTruthy a)
        (f'.levelLookup strTruthy a)) := by
  constructor
  · unfold initFmts at h
    obtain ⟨u1, h1, h⟩ := except_bind_ok.mp h
    obtain ⟨u2, h2, h⟩ := except_bind_ok.mp h
    obtain ⟨bk', hbk, h⟩ := except_bind_ok.mp h
    obtain ⟨f'', hupd, h⟩ := except_bind_ok.mp h
    simp only [Except.ok.injEq, Prod.mk.injEq] at h
    rw [hbk, h.2]
  · have hb := lc_get_eq strTruthy b' ha none
    have hf := lc_get_eq strTruthy f' ha none
    have hbl : b'.levelLookup strTruthy a =
        pyOr strTruthy (b'.attr a) (pyOr strTruthy b'.default none) := rfl
    have hfl : f'.levelLookup strTruthy a =
        pyOr strTruthy (f'.attr a) (pyOr strTruthy f'.default none) := rfl
    simp only [getFmtStr, ensureSsc, Option.getD, bind, Except.bind]
    rw [hb]
    rw [hbl]
    cases hv : pyOr strTruthy (b'.attr a) (pyOr strTruthy b'.default none) with
    | none =>
      simp only [pyOr]
      rw [hf, hfl]
      simp
    | some v =>
      have ht : strTruthy v = true := by
        rw [← hbl] at hv
        exact levelLookup_truthy hv
      simp only [ht, if_true, pyOr]
      simp

/-- C4 witness: the amended theorem applied to the concrete construction
from `lc0`. -/
theorem get_fmt_str_no_backup_uses_derived_backup_witness :
    fixBackupsNew lc0 = .ok lc0B ∧
    getFmtStr { force_ansi := false, ssc := some false, fmts := lc0C,
                backup_fmts := some lc0B } 20 =
      .ok (pyOr strTruthy (lc0B.levelLookup strTruthy .info)
        (lc0C.levelLookup strTruthy .info)) :=
  get_fmt_str_no_backup_uses_derived_backup lc0 lc0C lc0B .info 20 rfl rfl

/-- C8 counterexample: rendering a record whose message body ends in two
newlines appends the exception block directly after them, so *two*
newlines (not exactly one) separate the end of the body's text from the
exception block. -/
theorem format_exception_separator_not_always_single :
    initFmts lcMsg none [] = .ok (fmtsMsgC, bkMsg) ∧
    (Formatter.format tfConst st8 r8).map Prod.fst = .ok ("x\n\n" ++ "E") ∧
    appendWithNewline "x\n\n" "E" = "x\n\n" ++ "E" ∧
    trailingNewlines "x\n\n" = 2 ∧ (trailingNewlines "x\n\n" == 1) = false :=
  ⟨rfl, rfl, rfl, rfl, rfl⟩

/-- C8 (amended): the exception-append step of `format` inserts a newline
only when the body does not already end with one — in that case exactly
one newline separates body and block; a body already ending in newlines
is left untouched, so at least one (but possibly more) newlines
separate. -/
theorem append_with_newline_separator (s b : String) :
    (lastChar? s ≠ some '\n' →
      appendWithNewline s b = (s ++ "\n") ++ b ∧
      trailingNewlines (s ++ "\n") = 1) ∧
    (lastChar? s = some '\n' →
      appendWithNewline s b = s ++ b ∧ 1 ≤ trailingNewlines s) := by
  constructor
  · intro h
    constructor
    · unfold appendWithNewline
      rw [if_neg h]
    · unfold trailingNewlines
      rw [show (s ++ "\n").data = s.data ++ ['\n'] from rfl,
        List.reverse_append]
      simp only [List.reverse_cons, List.reverse_nil, List.nil_append,
        List.singleton_append]
      rw [List.takeWhile_cons]
      have hz : s.data.reverse.takeWhile (fun c => decide (c = '\n')) = [] := by
        cases hrev : s.data.reverse with
        | nil => rfl
        | cons hd tl =>
          have hh : s.data.getLast? = some hd := by
            rw [← List.head?_reverse, hrev]
            rfl
          have : hd ≠ '\n' := fun he => h (by rw [lastChar?, hh, he])
          rw [List.takeWhile_cons]
          simp [this]
      simp only [decide_True, if_true]
      rw [hz]
      rfl
  · intro h
    constructor
    · unfold appendWithNewline
      rw [if_pos h]
    · unfold trailingNewlines
      have hh : s.data.reverse.head? = some '\n' := by
        rw [List.head?_reverse]
        exact h
      cases hrev : s.data.reverse with
      | nil => rw [hrev] at hh; exact absurd hh (by simp)
      | cons hd tl =>
        rw [hrev] at hh
        have : hd = '\n' := by injection hh
        subst this
        rw [List.takeWhile_cons]
        simp

/-- C8 witness: the amended theorem applied to a body not ending in a
newline: exactly one newline is inserted before the block. -/
theorem append_with_newline_separator_witness :
    appendWithNewline "x" "E" = ("x" ++ "\n") ++ "E" ∧
    trailingNewlines ("x" ++ "\n") = 1 :=
  (append_with_newline_separator "x" "E").1 (by decide)

theorem foldlM_updateStep_chars :
    ∀ (L : List LCAttr), L.Nodup → ∀ (c c' : LC String),
      L.foldlM updateStep c = .ok c' →
      (∀ a ∈ L, compiledAttr (c.attr a) (c'.attr a)) ∧
      (∀ a, a ∉ L → c'.attr a = c.attr a) := by
  intro L
  induction L with
  | nil =>
    intro _ c c' h
    simp only [List.foldlM_nil] at h
    have hc : c = c' := by
      have : (Except.ok c : Except String (LC String)) = .ok c' := h
      simpa using this
    subst hc
    exact ⟨by simp, fun a _ => rfl⟩
  | cons x xs ih =>
    intro hnd c c' h
    obtain ⟨hnx, hndxs⟩ := List.nodup_cons.mp hnd
    simp only [List.foldlM_cons] at h
    obtain ⟨c₁, hx, hrest⟩ := except_bind_ok.mp h
    have hstep : compiledAttr (c.attr x) (c₁.attr x) ∧
        ∀ b, b ≠ x → c₁.attr b = c.attr b := by
      unfold updateStep at hx
      cases hca : c.attr x with
      | some v =>
        rw [hca] at hx
        obtain ⟨cv, hcv, hok⟩ := except_bind_ok.mp hx
        have hc1 : c₁ = c.setAttr x (some cv) := by simpa using hok.symm
        subst hc1
        constructor
        · unfold compiledAttr
          exact ⟨cv, hcv, attr_setAttr_same c x (some cv)⟩
        · intro b hb
          exact attr_setAttr_ne c x b (some cv) (Ne.symm hb)
      | none =>
        rw [hca] at hx
        have hc1 : c = c₁ := by simpa using hx
        subst hc1
        constructor
        · unfold compiledAttr
          rw [hca]
        · intro b _
          rfl

    obtain ⟨ihin, ihout⟩ := ih hndxs c₁ c' hrest
    constructor
    · intro a ha
      rcases List.mem_cons.mp ha with rfl | hxs
      · rw [ihout a hnx]
        exact hstep.1
      · rw [← hstep.2 a (fun he => hnx (he ▸ hxs))]
        exact ihin a hxs
    · intro a ha
      have h1 : a ∉ xs := fun hh => ha (List.mem_cons_of_mem _ hh)
      have h2 : a ≠ x := fun he => ha (he ▸ List.mem_cons_self _ _)
      rw [ihout a h1, hstep.2 a h2]

theorem foldl_fixBackupStep_chars (fmts : LC String) :
    ∀ (L : List LCAttr), L.Nodup → LCAttr.default ∉ L →
      ∀ (acc : LC String),
      (∀ a, a ∉ L → (L.foldl (fixBackupStep fmts) acc).attr a = acc.attr a) ∧
      (∀ a ∈ L, (L.foldl (fixBackupStep fmts) acc).attr a =
        match acc.levelLookup strTruthy a with
        | some _ => acc.attr a
        | none => fmts.levelLookup strTruthy a) := by
  intro L
  induction L with
  | nil => exact fun _ _ acc => ⟨fun a _ => rfl, by simp⟩
  | cons x xs ih =>
    intro hnd hdef acc
    obtain ⟨hnx, hndxs⟩ := List.nodup_cons.mp hnd
    have hdx : x ≠ LCAttr.default :=
      fun he => hdef (he ▸ List.mem_cons_self _ _)
    have hdxs : LCAttr.default ∉ xs :=
      fun hh => hdef (List.mem_cons_of_mem _ hh)
    have hstep_other : ∀ b, b ≠ x →
        (fixBackupStep fmts acc x).attr b = acc.attr b := by
      intro b hb
      unfold fixBackupStep
      cases acc.levelLookup strTruthy x with
      | some _ => rfl
      | none => exact attr_setAttr_ne acc x b _ (Ne.symm hb)
    have hstep_x : (fixBackupStep fmts acc x).attr x =
        match acc.levelLookup strTruthy x with
        | some _ => acc.attr x
        | none => fmts.levelLookup strTruthy x := by
      unfold fixBackupStep
      cases acc.levelLookup strTruthy x with
      | some _ => rfl
      | none => exact attr_setAttr_same acc x _
    have hLL : ∀ b, b ≠ x →
        (fixBackupStep fmts acc x).levelLookup strTruthy b =
          acc.levelLookup strTruthy b := by
      intro b hb
      exact levelLookup_congr (hstep_other b hb)
        (hstep_other LCAttr.default (Ne.symm hdx))
    obtain ⟨ihout, ihin⟩ := ih hndxs hdxs (fixBackupStep fmts acc x)
    constructor
    · intro a ha
      have h1 : a ∉ xs := fun hh => ha (List.mem_cons_of_mem _ hh)
      have h2 : a ≠ x := fun he => ha (he ▸ List.mem_cons_self _ _)
      show (xs.foldl (fixBackupStep fmts) (fixBackupStep fmts acc x)).attr a = _
      rw [ihout a h1, hstep_other a h2]
    · intro a ha
      rcases List.mem_cons.mp ha with rfl | hxs
      · show (xs.foldl (fixBackupStep fmts) (fixBackupStep fmts acc a)).attr a = _
        rw [ihout a hnx, hstep_x]
      · have hax : a ≠ x := fun he => hnx (he ▸ hxs)
        show (xs.foldl (fixBackupStep fmts) (fixBackupStep fmts acc x)).attr a = _
        rw [ihin a hxs, hLL a hax, hstep_other a hax]

/-- C9: the `Formatter.__init__` pipeline rewrites the caller's
containers (modelled as the returned states of the in-place mutation):
every non-`None` template of `fmts` is overwritten with its compiled
marker-annotated form (`None` slots stay empty), and a supplied
`backup_fmts` keeps its default but has each level with a falsy lookup
filled in from `fmts`'s raw lookup — so after construction the caller's
`fmts` no longer holds the raw templates. -/
theorem formatter_init_rewrites_callers_containers
    (fmts bk f' b' : LC String) (dkeys : List String)
    (h : initFmts fmts (some bk) dkeys = .ok (f', b')) :
    (∀ a raw, fmts.attr a = some raw →
      ∃ cv, toColorFormat raw = .ok cv ∧ f'.attr a = some cv) ∧
    (∀ a, fmts.attr a = none → f'.attr a = none) ∧
    b'.attr .default = bk.attr .default ∧
    (∀ a ∈ levelAttrs,
      (bk.levelLookup strTruthy a ≠ none → b'.attr a = bk.attr a) ∧
      (bk.levelLookup strTruthy a = none →
        b'.attr a = fmts.levelLookup strTruthy a)) := by
  have hmem : ∀ a : LCAttr, a ∈ allAttrs := by
    intro a
    cases a <;> decide
  unfold initFmts at h
  obtain ⟨u1, h1, h⟩ := except_bind_ok.mp h
  obtain ⟨u2, h2, h⟩ := except_bind_ok.mp h
  obtain ⟨u3, h3, h⟩ := except_bind_ok.mp h
  obtain ⟨f'', hupd, h⟩ := except_bind_ok.mp h
  simp only [Except.ok.injEq, Prod.mk.injEq] at h
  obtain ⟨hf, hb⟩ := h
  subst hf
  subst hb
  have hupd' : allAttrs.foldlM updateStep fmts = .ok f'' := hupd
  have hchars := foldlM_updateStep_chars allAttrs (by decide) fmts f'' hupd'
  have hfix := foldl_fixBackupStep_chars fmts levelAttrs (by decide) (by decide) bk
  unfold fixBackupsExisting
  refine ⟨?_, ?_, ?_, ?_⟩
  · intro a raw hra
    have hin := hchars.1 a (hmem a)
    unfold compiledAttr at hin
    rw [hra] at hin
    exact hin
  · intro a hra
    have hin := hchars.1 a (hmem a)
    unfold compiledAttr at hin
    rw [hra] at hin
    exact hin
  · exact hfix.1 LCAttr.default (by decide)
  · intro a ha
    have hin := hfix.2 a ha
    constructor
    · intro hne
      rw [hin]
      cases hl : bk.levelLookup strTruthy a with
      | some v => rfl
      | none => exact absurd hl hne
    · intro hl
      rw [hin, hl]

/-- C9 witness: the theorem applied to the concrete construction from
`lcMsg` with the partial backup `bk9`. -/
theorem formatter_init_rewrites_callers_containers_witness :
    initFmts lcMsg (some bk9) [] = .ok (fmtsMsgC, b9) ∧
    (∃ cv, toColorFormat "\x7bmessage\x7d" = .ok cv ∧
      fmtsMsgC.attr .default = some cv) ∧
    b9.attr .debug = lcMsg.levelLookup strTruthy .debug := by
  refine ⟨rfl, ?_, ?_⟩
  · exact (formatter_init_rewrites_callers_containers lcMsg bk9 fmtsMsgC b9 []
      rfl).1 .default "\x7bmessage\x7d" rfl
  · exact ((formatter_init_rewrites_callers_containers lcMsg bk9 fmtsMsgC b9 []
      rfl).2.2.2 .debug (by decide)).2 rfl

/-- C10: on a render of a record carrying `exc_info` and no truthy
`exc_text`, `format` writes the rendered exception text into the
record's `exc_text` and clears its `exc_info`, so the returned record no
longer carries the original exception info. -/
theorem format_caches_exception_and_clears_info
    (tf : Record → Option String → String) (st : FmtState) (r : Record)
    (tb out : String) (r' : Record)
    (hexc : r.exc_info = some tb) (htext : pyOptTruthy r.exc_text = false)
    (h : Formatter.format tf st r = .ok (out, r')) :
    r'.exc_text = some (formatException st tb r.levelno) ∧
    r'.exc_info = none := by
  unfold Formatter.format at h
  obtain ⟨fmtO, h1, h⟩ := except_bind_ok.mp h
  obtain ⟨fmt, h2, h⟩ := except_bind_ok.mp h
  obtain ⟨s, h3, h⟩ := except_bind_ok.mp h
  simp only [Except.ok.injEq, Prod.mk.injEq] at h
  obtain ⟨-, hr'⟩ := h
  have e1 : (setTime tf st fmt (setMessage r)).exc_info = some tb := by
    unfold setTime setMessage
    split <;> exact hexc
  have e2 : pyOptTruthy (setTime tf st fmt (setMessage r)).exc_text = false := by
    unfold setTime setMessage
    split <;> exact htext
  have e3 : (setTime tf st fmt (setMessage r)).levelno = r.levelno := by
    unfold setTime setMessage
    split <;> rfl
  rw [← hr']
  unfold cacheExc
  rw [e1, e2, e3]
  simp [e1]

/-- C10 witness: the theorem applied to a concrete successful render. -/
theorem format_caches_exception_and_clears_info_witness :
    Formatter.format tfConst st10 r10 = .ok ("hi\nboom", r10x) ∧
    r10x.exc_text = some (formatException st10 "boom\n" 20) ∧
    r10x.exc_info = none :=
  ⟨rfl,
   (format_caches_exception_and_clears_info tfConst st10 r10 "boom\n"
     "hi\nboom" r10x rfl rfl rfl).1,
   (format_caches_exception_and_clears_info tfConst st10 r10 "boom\n"
     "hi\nboom" r10x rfl rfl rfl).2⟩

end Plogging
